import Mathlib

/-!
# Sector pledging and storage attachment

A shallow embedding of

* `extern/storage-sealing/garbage.go`: `Sealing.PledgeSector` and
  `Sealing.nextSectorFromServer`;
* `cmd/lotus-storage-miner/run.go`: `AttachStorage` and the storage-attachment
  section of the `run` action.

Stateful code is written with explicit state passing.  The collaborators that
the two files call but do not define (sealing backend, sector counter, HTTP
client, operating system, storage subsystem) are fields of an environment
record acting on an abstract state `σ`; every theorem quantifies over all
such environments.  Each effectful collaborator call is also appended to a
call log, so that "is called", "is not called" and "is called once" are
statements about that log.
-/

namespace Snake

/-! ## Errors -/

/-- Result classes of `os.IsNotExist` / `os.IsExist` on an operating-system
error: an error is in at most one of the two classes. -/
inductive OsErr
  | notExist
  | exist
  | other (tag : Nat)
deriving DecidableEq

/-- Go `os.IsNotExist(err)` on a non-nil operating-system error. -/
def OsErr.IsNotExist : OsErr → Bool
  | .notExist => true
  | _ => false

/-- Go `os.IsExist(err)` on a non-nil operating-system error. -/
def OsErr.IsExist : OsErr → Bool
  | .exist => true
  | _ => false

/-- The two error kinds of `strconv.ParseUint`: `strconv.ErrSyntax`
(`invalidNumeral`) and `strconv.ErrRange` (`outOfRange`). -/
inductive NumErrKind
  | invalidNumeral
  | outOfRange
deriving DecidableEq

/-- Go `error` values.  `text` is an `xerrors.Errorf` message without a cause,
`wrapped s e` is `xerrors.Errorf(s + ": %w", e)` (also used for the one `%v`
at run.go:352), `num` is the `*strconv.NumError` of `ParseUint`, `os` an
operating-system error and `collab` an error produced by a collaborator. -/
inductive Err
  | text (s : String)
  | wrapped (s : String) (cause : Err)
  | num (input : List UInt8) (kind : NumErrKind)
  | os (e : OsErr)
  | collab (tag : Nat)
deriving DecidableEq

/-! ## `strconv.ParseUint(s, 10, 64)` and `strings.ReplaceAll`

Both are Go standard-library functions called at garbage.go:130-132; they are
transcribed here from the library for the arguments used there. -/

/-- Largest `uint64`. -/
def maxUint64 : Nat := 2 ^ 64 - 1

/-- The `cutoff` of `ParseUint` for base 10: `maxUint64/10 + 1`, the smallest
number whose product with the base overflows. -/
def cutoff10 : Nat := maxUint64 / 10 + 1

/-- Library helper `lower(c) = c | ('x' - 'X')`. -/
def lower (c : Nat) : Nat := c ||| 0x20

/-- The digit value `d` that the `switch` in the loop of `ParseUint` assigns to
byte `c` (`base0` is false for base 10, so the underscore case never fires);
`none` is the `default:` branch. -/
def digitVal (c : Nat) : Option Nat :=
  if 48 ≤ c ∧ c ≤ 57 then some (c - 48)
  else if 97 ≤ lower c ∧ lower c ≤ 122 then some (lower c - 97 + 10)
  else none

/-- One iteration of the loop of `ParseUint` at base 10 and bit size 64, with
accumulator `n`; `uint64` arithmetic is taken modulo `2 ^ 64`. -/
def parseUintStep (n : Nat) (c : UInt8) : Except NumErrKind Nat :=
  match digitVal c.toNat with
  | none => .error .invalidNumeral
  | some d =>
    if d ≥ 10 then .error .invalidNumeral
    else if n ≥ cutoff10 then .error .outOfRange
    else
      let n10 := (n * 10) % 2 ^ 64
      let n1 := (n10 + d) % 2 ^ 64
      if n1 < n10 ∨ n1 > maxUint64 then .error .outOfRange
      else .ok n1

/-- The loop `for _, c := range []byte(s)` of `ParseUint`. -/
def parseUintLoop : Nat → List UInt8 → Except NumErrKind Nat
  | n, [] => .ok n
  | n, c :: cs =>
    match parseUintStep n c with
    | .error k => .error k
    | .ok n1 => parseUintLoop n1 cs

/-- Go `strconv.ParseUint(s, 10, 64)`: the value and the error it returns.
The empty string is a syntax error; a range error returns `maxUint64`. -/
def ParseUint (s : List UInt8) : Nat × Option Err :=
  if s = [] then (0, some (.num s .invalidNumeral))
  else
    match parseUintLoop 0 s with
    | .ok n => (n, none)
    | .error .invalidNumeral => (0, some (.num s .invalidNumeral))
    | .error .outOfRange => (maxUint64, some (.num s .outOfRange))

/-- Go `strings.ReplaceAll(s, old, "")` for a one-byte `old`: every occurrence
of the byte is deleted. -/
def deleteByte (old : UInt8) (s : List UInt8) : List UInt8 :=
  s.filter (fun b => b != old)

/-- The expression at garbage.go:130:
`strings.ReplaceAll(strings.ReplaceAll(string(out), "\"", ""), "\n", "")`. -/
def stripBody (out : List UInt8) : List UInt8 :=
  deleteByte 10 (deleteByte 34 out)

/-! ## Data of the sealing package -/

/-- Go `abi.SectorID`. -/
structure SectorID where
  miner : Nat
  number : Nat
deriving DecidableEq

/-- Go `abi.PieceInfo`. -/
structure PieceInfo where
  size : Nat
  pieceCID : Nat
deriving DecidableEq

/-- Go `sealing.Piece`: a piece with optional deal information. -/
structure Piece where
  piece : PieceInfo
  dealInfo : Option Nat
deriving DecidableEq

/-- The field of the sealing configuration read by `PledgeSector`. -/
structure Config where
  MaxSealingSectors : Nat

/-- The globals of package `snakestar` read by `PledgeSector`. -/
structure Snakestar where
  PledgeSector : Bool
  WindowPost : Bool
  ServerAddress : String

/-- What `http.DefaultClient.Do` and `ioutil.ReadAll` deliver: the status
code, the bytes read from the body, and the read error (if any). -/
structure Response where
  statusCode : Nat
  body : List UInt8
  readErr : Option Err

/-- Effectful collaborator calls made by `PledgeSector` and its background
unit. -/
inductive Call
  | scNext
  | httpGet (url : String)
  | newSector (sid : SectorID)
  | pledgeSectorWithCache (sid : SectorID) (existing : List Nat) (size : Nat)
  | newSectorCC (sid : Nat) (pieces : List Piece)
deriving DecidableEq

/-- Collaborators of `Sealing`, acting on an abstract state `σ`.
`getConfig`, `curSealing` and `sectorSize` only read the state.
`pledgeSectorWithCache` (the piece-pledging step that calls `AddPiece`),
`newSectorCC` and `minerSector` are methods of `Sealing` defined outside
garbage.go. -/
structure SealingEnv (σ : Type) where
  getConfig : σ → Except Err Config
  curSealing : σ → Nat
  sectorSize : σ → Nat
  scNext : σ → (Nat × Option Err) × σ
  newRequest : String → Option Err
  doRequest : String → σ → Except Err Response × σ
  minerSector : Nat → SectorID
  newSector : SectorID → σ → Option Err × σ
  pledgeSectorWithCache : SectorID → List Nat → Nat → σ → (List PieceInfo × Option Err) × σ
  newSectorCC : Nat → List Piece → σ → Option Err × σ
  snakestar : Snakestar

/-- Collaborator state together with the log of effectful calls made so
far. -/
structure World (σ : Type) (κ : Type) where
  st : σ
  log : List κ

/-- Append one call to the log and install the new collaborator state. -/
def World.step {σ κ : Type} (w : World σ κ) (c : κ) (s : σ) : World σ κ :=
  ⟨s, w.log ++ [c]⟩

/-- Go `abi.PaddedPieceSize.Unpadded`: `p - p/128`. -/
def Unpadded (p : Nat) : Nat := p - p / 128

/-! ## garbage.go -/

/-- `Sealing.nextSectorFromServer` (garbage.go:104-138): the returned sector
number and error, and the world afterwards. -/
def nextSectorFromServer {σ : Type} (env : SealingEnv σ) (url : String)
    (w : World σ Call) : (Nat × Option Err) × World σ Call :=
  if url = "" then
    ((0, some (.text ("invalid server address " ++ url))), w)
  else
    match env.newRequest url with
    | some e => ((0, some (.wrapped "request" e)), w)
    | none =>
      match env.doRequest url w.st with
      | (.error e, s1) => ((0, some (.wrapped "do request" e)), w.step (.httpGet url) s1)
      | (.ok resp, s1) =>
        if resp.statusCode ≠ 200 then
          ((0, some (.text ("non-200 code: " ++ toString resp.statusCode))),
            w.step (.httpGet url) s1)
        else
          -- a read error is only reported on stderr; decoding goes on with `out`
          let str := stripBody resp.body
          match ParseUint str with
          | (_, some e) => ((0, some e), w.step (.httpGet url) s1)
          | (sn, none) => ((sn, none), w.step (.httpGet url) s1)

/-- The allocation at garbage.go:59-67: the local counter when both
`snakestar.PledgeSector` and `snakestar.WindowPost` are set, the remote
allocator otherwise. -/
def allocateSector {σ : Type} (env : SealingEnv σ) (w : World σ Call) :
    (Nat × Option Err) × World σ Call :=
  if env.snakestar.PledgeSector && env.snakestar.WindowPost then
    let r := env.scNext w.st
    (r.1, w.step .scNext r.2)
  else
    nextSectorFromServer env ("http://" ++ env.snakestar.ServerAddress ++ "/snake/nextid") w

/-- The body of the `go func()` of `PledgeSector` (garbage.go:51-99), run to
its end.  Errors are only logged, so the result is the world afterwards. -/
def pledgeBackground {σ : Type} (env : SealingEnv σ) (w : World σ Call) : World σ Call :=
  let size := Unpadded (env.sectorSize w.st)
  match allocateSector env w with
  | ((_, some _), w1) => w1
  | ((sid, none), w1) =>
    match env.newSector (env.minerSector sid) w1.st with
    | (some _, s2) => w1.step (.newSector (env.minerSector sid)) s2
    | (none, s2) =>
      let w2 := w1.step (.newSector (env.minerSector sid)) s2
      match env.pledgeSectorWithCache (env.minerSector sid) [] size w2.st with
      | ((_, some _), s3) => w2.step (.pledgeSectorWithCache (env.minerSector sid) [] size) s3
      | ((pieces, none), s3) =>
        let w3 := w2.step (.pledgeSectorWithCache (env.minerSector sid) [] size) s3
        let ps := pieces.map (fun p => ({ piece := p, dealInfo := none } : Piece))
        w3.step (.newSectorCC sid ps) (env.newSectorCC sid ps w3.st).2

/-- What a call of `PledgeSector` leaves behind: the returned error, whether
the `go` statement was reached (a background unit was started), and the
world. -/
structure PledgeResult (σ : Type) where
  err : Option Err
  started : Bool
  world : World σ Call

/-- The synchronous part of `Sealing.PledgeSector` (garbage.go:39-50, 100). -/
def PledgeSector {σ : Type} (env : SealingEnv σ) (w : World σ Call) : PledgeResult σ :=
  match env.getConfig w.st with
  | .error e => ⟨some (.wrapped "getting config" e), false, w⟩
  | .ok cfg =>
    if cfg.MaxSealingSectors > 0 then
      if env.curSealing w.st > cfg.MaxSealingSectors then
        ⟨some (.text ("too many sectors sealing (curSealing: " ++ toString (env.curSealing w.st)
          ++ ", max: " ++ toString cfg.MaxSealingSectors ++ ")")), false, w⟩
      else ⟨none, true, w⟩
    else ⟨none, true, w⟩

/-- A pledge attempt run sequentially: `PledgeSector`, followed by the
background unit when one was started. -/
def pledgeAttempt {σ : Type} (env : SealingEnv σ) (w : World σ Call) :
    Option Err × World σ Call :=
  let r := PledgeSector env w
  if r.started then (r.err, pledgeBackground env r.world) else (r.err, r.world)

/-! ## run.go: storage attachment -/

/-- Go `stores.LocalStorageMeta`, the content of the metadata file. -/
structure LocalStorageMeta where
  ID : String
  Weight : Nat
  CanSeal : Bool
  CanStore : Bool
deriving DecidableEq

/-- Effectful calls made by `AttachStorage`.  The read-only probes `os.Stat`
and `StorageLocal` are not logged. -/
inductive FsCall
  | mkdirAll (p : String)
  | uuidNew
  | writeFile (name : String) (data : String)
  | storageAddLocal (p : String)
deriving DecidableEq

/-- Collaborators of `AttachStorage`, acting on an abstract state `σ`:
`homeDir` is `homedir.Dir()`, `join` is `filepath.Join`, `metaFile` the
package constant of that name (declared outside run.go), `stat` the error of
`os.Stat` (`none` is `nil`), `mkdirAll` that of `os.MkdirAll`, `uuidNew` is
`uuid.New().String()`, `marshalIndent` is `json.MarshalIndent(cfg, "", "  ")`,
`writeFile` is `ioutil.WriteFile`, and `storageLocal` (the values of the
returned map) and `storageAddLocal` are the two methods of `api.StorageMiner`
that are called. -/
structure StorageEnv (σ : Type) where
  homeDir : Except Err String
  join : String → String → String
  metaFile : String
  stat : String → σ → Option OsErr
  mkdirAll : String → σ → Option OsErr × σ
  uuidNew : σ → String × σ
  marshalIndent : LocalStorageMeta → Except Err String
  writeFile : String → String → σ → Option OsErr × σ
  storageLocal : σ → Except Err (List String)
  storageAddLocal : String → σ → Option Err × σ

/-- Library function `homedir.Expand` (go-homedir), called at run.go:305: a
path that does not start with `~` is returned as it is; `~user` is an error;
otherwise the home directory is joined with the rest of the path. -/
def homedirExpand {σ : Type} (env : StorageEnv σ) (path : String) : Except Err String :=
  match path.data with
  | [] => .ok path
  | c0 :: rest =>
    if c0 ≠ '~' then .ok path
    else if (match rest with
        | [] => false
        | c1 :: _ => c1 ≠ '/' && c1 ≠ Char.ofNat 92) then
      .error (.text "cannot expand user-specific home dir")
    else
      match env.homeDir with
      | .error e => .error e
      | .ok dir => .ok (env.join dir (String.mk rest))

/-- The directory step of `AttachStorage` (run.go:309-320): when `os.Stat(p)`
reports that `p` does not exist the directory is created, and a creation
error other than "already exists" is returned; any other outcome of
`os.Stat` is passed over. -/
def ensureDir {σ : Type} (env : StorageEnv σ) (p : String) (w : World σ FsCall) :
    Option Err × World σ FsCall :=
  match env.stat p w.st with
  | none => (none, w)
  | some e =>
    if e.IsNotExist then
      match env.mkdirAll p w.st with
      | (none, s1) => (none, w.step (.mkdirAll p) s1)
      | (some e1, s1) =>
        if !e1.IsExist then (some (.os e1), w.step (.mkdirAll p) s1)
        else (none, w.step (.mkdirAll p) s1)
    else (none, w)

/-- The branch `if !metaFileAreadyExised` of `AttachStorage`
(run.go:334-348), entered with the expanded path `p`. -/
def attachFresh {σ : Type} (env : StorageEnv σ) (p : String) (canSeal canStore : Bool)
    (w1 : World σ FsCall) : Option Err × World σ FsCall :=
  let u := env.uuidNew w1.st
  let w2 := w1.step .uuidNew u.2
  let cfg : LocalStorageMeta := { ID := u.1, Weight := 10, CanSeal := canSeal, CanStore := canStore }
  match env.marshalIndent cfg with
  | .error e => (some (.wrapped "marshaling storage config" e), w2)
  | .ok b =>
    match env.writeFile (env.join p env.metaFile) b w2.st with
    | (some e, s3) =>
      (some (.wrapped ("persisting storage metadata (" ++ env.join p env.metaFile ++ ")") (.os e)),
        w2.step (.writeFile (env.join p env.metaFile) b) s3)
    | (none, s3) =>
      let w3 := w2.step (.writeFile (env.join p env.metaFile) b) s3
      let r := env.storageAddLocal p w3.st
      (r.1, w3.step (.storageAddLocal p) r.2)

/-- The `else` branch of `AttachStorage` (run.go:350-360), entered with the
argument `path` and the expanded path `p`.  The loop variable of
`for _, p := range local` shadows `p` inside the loop only: the comparison is
with the argument `path`, the registration after the loop uses the expanded
`p`. -/
def attachExisting {σ : Type} (env : StorageEnv σ) (path p : String)
    (w1 : World σ FsCall) : Option Err × World σ FsCall :=
  match env.storageLocal w1.st with
  | .error e => (some (.wrapped "StorageLocal Error" e), w1)
  | .ok locals =>
    if locals.any (fun q => q == path) then (none, w1)
    else
      let r := env.storageAddLocal p w1.st
      (r.1, w1.step (.storageAddLocal p) r.2)

/-- Go `AttachStorage(api, path, seal, store)` (run.go:304-362): the returned
error and the world afterwards.  The two flags are named `canSeal` and
`canStore` here, `seal` being a reserved word. -/
def AttachStorage {σ : Type} (env : StorageEnv σ) (path : String) (canSeal canStore : Bool)
    (w : World σ FsCall) : Option Err × World σ FsCall :=
  match homedirExpand env path with
  | .error e => (some (.wrapped "expanding path" e), w)
  | .ok p =>
    match ensureDir env p w with
    | (some e, w1) => (some e, w1)
    | (none, w1) =>
      -- `if !os.IsNotExist(err) { if err == nil { existed = true } else { return err } }`
      match env.stat (env.join p env.metaFile) w1.st with
      | none => attachExisting env path p w1
      | some e =>
        if !e.IsNotExist then (some (.os e), w1)
        else attachFresh env p canSeal canStore w1

/-- The storage-attachment section of the `run` action (run.go:180-204) for
the values `sealPath` and `storePath` of the flags `seal` and `store`.  A returned error is the
error the action returns (startup is aborted); `none` means the action goes
on to the next step. -/
def runCmdAttach {σ : Type} (env : StorageEnv σ) (sealPath storePath : String)
    (w : World σ FsCall) : Option Err × World σ FsCall :=
  if sealPath ≠ "" ∧ storePath ≠ "" ∧ sealPath = storePath then
    AttachStorage env sealPath true true w
  else
    match (if sealPath ≠ "" then AttachStorage env sealPath true false w else (none, w)) with
    | (some e, w1) => (some e, w1)
    | (none, w1) =>
      if storePath ≠ "" then AttachStorage env storePath false true w1 else (none, w1)

/-! ## Notions used to state the properties -/

/-- Byte `c` is one of the ASCII digits `0` to `9`. -/
def IsDigit (c : UInt8) : Prop := 48 ≤ c.toNat ∧ c.toNat ≤ 57

instance (c : UInt8) : Decidable (IsDigit c) := by
  unfold IsDigit; infer_instance

/-- The number written by a string of decimal digits, read after the digits
already accumulated in `acc`. -/
def decimalFrom (acc : Nat) (s : List UInt8) : Nat :=
  s.foldl (fun n c => n * 10 + (c.toNat - 48)) acc

/-- The number written by a string of decimal digits. -/
def decimalValue (s : List UInt8) : Nat := decimalFrom 0 s

/-- String `s` is a digits-only decimal numeral of `n`: it is not empty, all
its bytes are digits, and it denotes `n` (leading zeros allowed). -/
def IsNumeralOf (s : List UInt8) (n : Nat) : Prop :=
  s ≠ [] ∧ (∀ c ∈ s, IsDigit c) ∧ decimalValue s = n

/-- A strictly increasing allocator, with `rank` the highest sector number
issued so far: every successful allocation returns a number above the rank and
raises the rank to at least that number, and `NewSector` does not lower it. -/
def StrictlyIncreasing {σ : Type} (env : SealingEnv σ) (rank : σ → Nat) : Prop :=
  (∀ w n w1, allocateSector env w = ((n, none), w1) → rank w.st < n ∧ n ≤ rank w1.st) ∧
  (∀ sid s, rank s ≤ rank (env.newSector sid s).2)

/-- The calls of a log that write a file. -/
def writes (l : List FsCall) : List FsCall :=
  l.filter (fun c => match c with
    | .writeFile _ _ => true
    | _ => false)

/-- The calls of a log that register a path with the storage subsystem. -/
def registrations (l : List FsCall) : List FsCall :=
  l.filter (fun c => match c with
    | .storageAddLocal _ => true
    | _ => false)

/-- The calls of a log that generate an id. -/
def idGenerations (l : List FsCall) : List FsCall :=
  l.filter (fun c => match c with
    | .uuidNew => true
    | _ => false)

/-! ## Sample environments

Concrete collaborators on which the functions above can be evaluated. -/

/-- State of the sample sealing collaborators: the number of sectors sealing,
the last number issued by the local counter and the registered sectors. -/
structure Node where
  sealing : Nat
  counter : Nat
  sectors : List Nat
deriving DecidableEq

/-- Sample sealing collaborators: ceiling `max`, a local counter that issues
`counter + 1`, a remote allocator that always answers `resp`, and a sealing
backend whose `NewSector` succeeds exactly when `newSectorOk`. -/
def sampleSealing (max : Nat) (flags : Snakestar) (resp : Except Err Response)
    (newSectorOk : Bool) : SealingEnv Node where
  getConfig := fun _ => .ok ⟨max⟩
  curSealing := fun s => s.sealing
  sectorSize := fun _ => 2048
  scNext := fun s => ((s.counter + 1, none), { s with counter := s.counter + 1 })
  newRequest := fun _ => none
  doRequest := fun _ s => (resp, s)
  minerSector := fun n => ⟨1000, n⟩
  newSector := fun _ s => (if newSectorOk then none else some (.collab 1), s)
  pledgeSectorWithCache := fun _ _ size s => (([⟨size, 0⟩], none), s)
  newSectorCC := fun n _ s =>
    (none, { s with sectors := s.sectors ++ [n], sealing := s.sealing + 1 })
  snakestar := flags

/-- Flags selecting the local counter. -/
def localFlags : Snakestar := ⟨true, true, "127.0.0.1:2345"⟩

/-- Flags selecting the remote allocator. -/
def remoteFlags : Snakestar := ⟨false, false, "127.0.0.1:2345"⟩

/-- A 200 response with the given body. -/
def ok200 (body : List UInt8) : Except Err Response := .ok ⟨200, body, none⟩

/-- State of the sample storage collaborators: directories, files with their
content, the paths known to the storage subsystem, and the number of ids
generated so far. -/
structure Disk where
  dirs : List String
  files : List (String × String)
  known : List String
  ids : Nat
deriving DecidableEq

/-- Split a path at every slash. -/
def splitSlash : List Char → List (List Char)
  | [] => [[]]
  | c :: cs =>
    match splitSlash cs with
    | [] => [[]]
    | h :: t => if c = '/' then [] :: h :: t else (c :: h) :: t

/-- Resolve the components of a path from left to right; `acc` holds the
components kept so far, last one first. -/
def cleanParts (rooted : Bool) : List (List Char) → List (List Char) → List (List Char)
  | acc, [] => acc.reverse
  | acc, x :: xs =>
    if x = [] ∨ x = ['.'] then cleanParts rooted acc xs
    else if x = ['.', '.'] then
      match acc with
      | [] => if rooted then cleanParts rooted [] xs else cleanParts rooted [x] xs
      | a :: as =>
        if a = ['.', '.'] then cleanParts rooted (x :: a :: as) xs
        else cleanParts rooted as xs
    else cleanParts rooted (x :: acc) xs

/-- Unix `filepath.Clean`, by components. -/
def filepathClean (s : List Char) : List Char :=
  if s = [] then ['.']
  else
    let rooted := s.head? = some '/'
    let body := List.intercalate ['/'] (cleanParts rooted [] (splitSlash s))
    if rooted then '/' :: body
    else if body = [] then ['.'] else body

/-- Unix `filepath.Join` of two elements: empty elements are ignored and the
result is cleaned. -/
def filepathJoin (a b : String) : String :=
  if a = "" then (if b = "" then "" else String.mk (filepathClean b.data))
  else String.mk (filepathClean (a.data ++ '/' :: b.data))

/-- Sample rendering of the metadata as indented JSON. -/
def renderMeta (m : LocalStorageMeta) : String :=
  "\x7b\n  \x22ID\x22: \x22" ++ m.ID ++ "\x22,\n  \x22Weight\x22: " ++ toString m.Weight
    ++ ",\n  \x22CanSeal\x22: " ++ toString m.CanSeal ++ ",\n  \x22CanStore\x22: "
    ++ toString m.CanStore ++ "\n\x7d"

/-- Sample storage collaborators: an in-memory file system in which every
operation succeeds, home directory `/home/u`, and a storage subsystem that
appends every registered path to its list. -/
def sampleStorage : StorageEnv Disk where
  homeDir := .ok "/home/u"
  join := filepathJoin
  metaFile := "sectorstore.json"
  stat := fun p s =>
    if p ∈ s.dirs ∨ (s.files.lookup p).isSome then none else some .notExist
  mkdirAll := fun p s => (none, { s with dirs := p :: s.dirs })
  uuidNew := fun s => ("id-" ++ toString s.ids, { s with ids := s.ids + 1 })
  marshalIndent := fun m => .ok (renderMeta m)
  writeFile := fun name data s => (none, { s with files := (name, data) :: s.files })
  storageLocal := fun s => .ok s.known
  storageAddLocal := fun p s => (none, { s with known := s.known ++ [p] })

/-- Sample storage collaborators whose `ioutil.WriteFile` fails. -/
def readOnlyStorage : StorageEnv Disk :=
  { sampleStorage with writeFile := fun _ _ s => (some (.other 13), s) }

/-- An empty disk. -/
def emptyDisk : Disk := ⟨[], [], [], 0⟩

/-- A disk on which `/home/u/data` is attached already: the directory and its
metadata file exist and the storage subsystem knows the path. -/
def attachedDisk : Disk :=
  ⟨["/home/u/data"],
   [("/home/u/data/sectorstore.json",
      renderMeta ⟨"id-0", 10, true, true⟩)],
   ["/home/u/data"], 1⟩


/-! ## Decoding the remote response -/

theorem decimalFrom_cons (acc : Nat) (c : UInt8) (cs : List UInt8) :
    decimalFrom acc (c :: cs) = decimalFrom (acc * 10 + (c.toNat - 48)) cs := rfl

theorem le_decimalFrom (cs : List UInt8) (acc : Nat) : acc ≤ decimalFrom acc cs := by
  induction cs generalizing acc with
  | nil => exact Nat.le_refl _
  | cons c cs ih =>
    rw [decimalFrom_cons]
    exact Nat.le_trans (by omega) (ih _)

theorem parseUintStep_digit (n : Nat) (c : UInt8) (hc : IsDigit c) (hn : n < 2 ^ 64) :
    parseUintStep n c =
      if n * 10 + (c.toNat - 48) < 2 ^ 64 then .ok (n * 10 + (c.toNat - 48))
      else .error .outOfRange := by
  obtain ⟨h1, h2⟩ := hc
  have hd : digitVal c.toNat = some (c.toNat - 48) := by
    unfold digitVal
    rw [if_pos ⟨h1, h2⟩]
  unfold parseUintStep
  rw [hd]
  simp only [cutoff10, maxUint64]
  norm_num at hn ⊢
  split_ifs <;> first | rfl | omega | (simp; omega)

theorem parseUintStep_nondigit (n : Nat) (c : UInt8) (hc : ¬ IsDigit c) :
    parseUintStep n c = .error .invalidNumeral := by
  unfold IsDigit at hc
  by_cases h : 97 ≤ lower c.toNat ∧ lower c.toNat ≤ 122
  · have hd : digitVal c.toNat = some (lower c.toNat - 97 + 10) := by
      unfold digitVal
      rw [if_neg hc, if_pos h]
    unfold parseUintStep
    rw [hd]
    simp
  · have hd : digitVal c.toNat = none := by
      unfold digitVal
      rw [if_neg hc, if_neg h]
    unfold parseUintStep
    rw [hd]

theorem parseUintLoop_ok_iff (s : List UInt8) (n v : Nat) (hn : n < 2 ^ 64) :
    parseUintLoop n s = .ok v ↔
      (∀ c ∈ s, IsDigit c) ∧ decimalFrom n s < 2 ^ 64 ∧ v = decimalFrom n s := by
  induction s generalizing n with
  | nil =>
    simp only [parseUintLoop, decimalFrom, List.foldl_nil, List.not_mem_nil, false_implies,
      implies_true, true_and, Except.ok.injEq]
    constructor
    · intro h; exact ⟨hn, h.symm⟩
    · intro h; exact h.2.symm
  | cons c cs ih =>
    rw [decimalFrom_cons]
    by_cases hc : IsDigit c
    · unfold parseUintLoop
      rw [parseUintStep_digit n c hc hn]
      by_cases hlt : n * 10 + (c.toNat - 48) < 2 ^ 64
      · rw [if_pos hlt]
        simp only [List.mem_cons, forall_eq_or_imp]
        rw [ih _ hlt]
        constructor
        · rintro ⟨h1, h2, h3⟩; exact ⟨⟨hc, h1⟩, h2, h3⟩
        · rintro ⟨⟨_, h1⟩, h2, h3⟩; exact ⟨h1, h2, h3⟩
      · rw [if_neg hlt]
        have hge := le_decimalFrom cs (n * 10 + (c.toNat - 48))
        constructor
        · intro h; cases h
        · rintro ⟨_, h2, _⟩; omega
    · unfold parseUintLoop
      rw [parseUintStep_nondigit n c hc]
      constructor
      · intro h; cases h
      · rintro ⟨h1, _⟩; exact absurd (h1 c (List.mem_cons_self _ _)) hc

/-- What `ParseUint` returns: the value of a non-empty all-digit string below
`2 ^ 64` without an error, and an error in every other case. -/
theorem ParseUint_spec (s : List UInt8) :
    (s ≠ [] ∧ (∀ c ∈ s, IsDigit c) ∧ decimalValue s < 2 ^ 64 ∧
        ParseUint s = (decimalValue s, none)) ∨
      ((s = [] ∨ (∃ c ∈ s, ¬ IsDigit c) ∨ 2 ^ 64 ≤ decimalValue s) ∧
        ∃ v e, ParseUint s = (v, some e)) := by
  by_cases hs : s = []
  · right
    refine ⟨Or.inl hs, 0, .num s .invalidNumeral, ?_⟩
    unfold ParseUint
    rw [if_pos hs]
  · have hiff := fun v => parseUintLoop_ok_iff s 0 v (by norm_num)
    unfold ParseUint
    rw [if_neg hs]
    cases hloop : parseUintLoop 0 s with
    | ok v =>
      left
      have h := (hiff v).1 hloop
      refine ⟨hs, h.1, h.2.1, ?_⟩
      show (v, none) = (decimalValue s, none)
      rw [h.2.2]; rfl
    | error k =>
      right
      constructor
      · by_contra hcon
        push_neg at hcon
        have h := (hiff (decimalFrom 0 s)).2 ⟨fun c hc => hcon.2.1 c hc, hcon.2.2, rfl⟩
        rw [hloop] at h
        cases h
      · cases k
        · exact ⟨0, _, rfl⟩
        · exact ⟨maxUint64, _, rfl⟩

theorem nextSectorFromServer_of_response {σ : Type} (env : SealingEnv σ) (url : String)
    (w : World σ Call) (resp : Response) (s1 : σ) (hurl : url ≠ "")
    (hreq : env.newRequest url = none) (hdo : env.doRequest url w.st = (.ok resp, s1)) :
    nextSectorFromServer env url w =
      if resp.statusCode ≠ 200 then
        ((0, some (.text ("non-200 code: " ++ toString resp.statusCode))),
          w.step (.httpGet url) s1)
      else
        match ParseUint (stripBody resp.body) with
        | (_, some e) => ((0, some e), w.step (.httpGet url) s1)
        | (sn, none) => ((sn, none), w.step (.httpGet url) s1) := by
  unfold nextSectorFromServer
  rw [if_neg hurl, hreq]
  simp only [hdo]

/-- C3. Decorated numerals are accepted: when the request for a non-empty URL
is answered with status 200 and a body that, once every double quote and every
newline is deleted, is a digits-only decimal numeral of some `n < 2 ^ 64`,
`nextSectorFromServer` returns sector number `n` and no error. -/
theorem nextSectorFromServer_accepts_decorated {σ : Type} (env : SealingEnv σ) (url : String)
    (w : World σ Call) (resp : Response) (s1 : σ) (n : Nat) (hurl : url ≠ "")
    (hreq : env.newRequest url = none) (hdo : env.doRequest url w.st = (.ok resp, s1))
    (hstatus : resp.statusCode = 200) (hnum : IsNumeralOf (stripBody resp.body) n)
    (hn : n < 2 ^ 64) :
    (nextSectorFromServer env url w).1 = (n, none) := by
  rw [nextSectorFromServer_of_response env url w resp s1 hurl hreq hdo]
  rw [if_neg (by simp [hstatus])]
  obtain ⟨hne, hdig, hval⟩ := hnum
  rcases ParseUint_spec (stripBody resp.body) with ⟨_, _, _, hp⟩ | ⟨hbad, _⟩
  · rw [hp, hval]
  · exfalso
    rcases hbad with h | ⟨c, hc, hnd⟩ | h
    · exact hne h
    · exact hnd (hdig c hc)
    · omega

/-- C3, witness: the body `"42"` followed by a newline yields sector 42. -/
theorem nextSectorFromServer_accepts_decorated_witness :
    ("http://127.0.0.1:2345/snake/nextid" ≠ "" ∧
      IsNumeralOf (stripBody [34, 52, 50, 34, 10]) 42 ∧ 42 < 2 ^ 64) ∧
    (nextSectorFromServer (sampleSealing 2 remoteFlags (ok200 [34, 52, 50, 34, 10]) true)
      "http://127.0.0.1:2345/snake/nextid" ⟨⟨0, 0, []⟩, []⟩).1 = (42, none) :=
  ⟨⟨by decide, ⟨by decide, by decide, by decide⟩, by decide⟩,
    nextSectorFromServer_accepts_decorated
      (sampleSealing 2 remoteFlags (ok200 [34, 52, 50, 34, 10]) true)
      "http://127.0.0.1:2345/snake/nextid" ⟨⟨0, 0, []⟩, []⟩ ⟨200, [34, 52, 50, 34, 10], none⟩
      ⟨0, 0, []⟩ 42 (by decide) rfl rfl rfl ⟨by decide, by decide, by decide⟩ (by decide)⟩

/-- C4. Everything else fails.  `nextSectorFromServer` returns a sector number
without an error only if the request was answered with status 200 and a body
whose text, once every double quote and newline is deleted, is a non-empty
string of digits denoting the returned number, which is below `2 ^ 64`.  In
every other case (empty URL, failed request, status other than 200, stripped
text that is empty, holds a byte that is not a digit, or denotes a number of
`2 ^ 64` or more) it returns sector number 0 together with an error. -/
theorem nextSectorFromServer_fails_otherwise {σ : Type} (env : SealingEnv σ) (url : String)
    (w : World σ Call) :
    (∀ n, (nextSectorFromServer env url w).1 = (n, none) →
        ∃ resp s1, env.doRequest url w.st = (.ok resp, s1) ∧ resp.statusCode = 200 ∧
          stripBody resp.body ≠ [] ∧ (∀ c ∈ stripBody resp.body, IsDigit c) ∧
          decimalValue (stripBody resp.body) < 2 ^ 64 ∧
          n = decimalValue (stripBody resp.body)) ∧
    (∀ resp s1, env.doRequest url w.st = (.ok resp, s1) →
        (resp.statusCode ≠ 200 ∨ stripBody resp.body = [] ∨
          (∃ c ∈ stripBody resp.body, ¬ IsDigit c) ∨
          2 ^ 64 ≤ decimalValue (stripBody resp.body)) →
        ∃ e, (nextSectorFromServer env url w).1 = (0, some e)) ∧
    ((∀ n, (nextSectorFromServer env url w).1 ≠ (n, none)) →
        ∃ e, (nextSectorFromServer env url w).1 = (0, some e)) := by
  have key : (∃ e, (nextSectorFromServer env url w).1 = (0, some e)) ∨
      ∃ resp s1, env.doRequest url w.st = (.ok resp, s1) ∧ resp.statusCode = 200 ∧
          stripBody resp.body ≠ [] ∧ (∀ c ∈ stripBody resp.body, IsDigit c) ∧
          decimalValue (stripBody resp.body) < 2 ^ 64 ∧
          (nextSectorFromServer env url w).1 = (decimalValue (stripBody resp.body), none) := by
    by_cases hurl : url = ""
    · left
      unfold nextSectorFromServer
      rw [if_pos hurl]
      exact ⟨_, rfl⟩
    · cases hreq : env.newRequest url with
      | some e =>
        left
        unfold nextSectorFromServer
        rw [if_neg hurl, hreq]
        exact ⟨_, rfl⟩
      | none =>
        rcases hdo : env.doRequest url w.st with ⟨r, s1⟩
        cases r with
        | error e =>
          left
          unfold nextSectorFromServer
          rw [if_neg hurl, hreq]
          simp only [hdo]
          exact ⟨_, rfl⟩
        | ok resp =>
          rw [nextSectorFromServer_of_response env url w resp s1 hurl hreq hdo]
          by_cases hst : resp.statusCode = 200
          · rw [if_neg (by simp [hst])]
            rcases ParseUint_spec (stripBody resp.body) with ⟨h1, h2, h3, hp⟩ | ⟨_, v, e, hp⟩
            · right
              exact ⟨resp, s1, rfl, hst, h1, h2, h3, by rw [hp]⟩
            · left
              rw [hp]
              exact ⟨e, rfl⟩
          · left
            rw [if_pos hst]
            exact ⟨_, rfl⟩
  refine ⟨?_, ?_, ?_⟩
  · intro n hn
    rcases key with ⟨e, he⟩ | ⟨resp, s1, h1, h2, h3, h4, h5, h6⟩
    · rw [he] at hn; cases hn
    · refine ⟨resp, s1, h1, h2, h3, h4, h5, ?_⟩
      rw [h6] at hn
      exact (congrArg Prod.fst hn).symm
  · intro resp s1 hdo hbad
    rcases key with he | ⟨resp', s1', h1, h2, h3, h4, h5, _⟩
    · exact he
    · exfalso
      rw [hdo] at h1
      cases h1
      rcases hbad with h | h | ⟨c, hc, hnd⟩ | h
      · exact h h2
      · exact h3 h
      · exact hnd (h4 c hc)
      · omega
  · intro hno
    rcases key with he | ⟨resp, s1, _, _, _, _, _, h6⟩
    · exact he
    · exact absurd h6 (hno _)

/-- C4, witness: the body `abc` is refused with sector number 0, and so is a
404 answer carrying a well-formed number. -/
theorem nextSectorFromServer_fails_otherwise_witness :
    (∃ e, (nextSectorFromServer (sampleSealing 2 remoteFlags (ok200 [97, 98, 99]) true)
      "http://127.0.0.1:2345/snake/nextid" ⟨⟨0, 0, []⟩, []⟩).1 = (0, some e)) ∧
    (∃ e, (nextSectorFromServer
      (sampleSealing 2 remoteFlags (.ok ⟨404, [52, 50], none⟩) true)
      "http://127.0.0.1:2345/snake/nextid" ⟨⟨0, 0, []⟩, []⟩).1 = (0, some e)) :=
  ⟨(nextSectorFromServer_fails_otherwise
      (sampleSealing 2 remoteFlags (ok200 [97, 98, 99]) true)
      "http://127.0.0.1:2345/snake/nextid" ⟨⟨0, 0, []⟩, []⟩).2.1
      ⟨200, [97, 98, 99], none⟩ ⟨0, 0, []⟩ rfl
      (Or.inr (Or.inr (Or.inl ⟨97, by decide, by decide⟩))),
   (nextSectorFromServer_fails_otherwise
      (sampleSealing 2 remoteFlags (.ok ⟨404, [52, 50], none⟩) true)
      "http://127.0.0.1:2345/snake/nextid" ⟨⟨0, 0, []⟩, []⟩).2.1
      ⟨404, [52, 50], none⟩ ⟨0, 0, []⟩ rfl (Or.inl (by decide))⟩

/-! ## Admission -/

theorem PledgeSector_of_config {σ : Type} (env : SealingEnv σ) (w : World σ Call)
    (cfg : Config) (hcfg : env.getConfig w.st = .ok cfg) :
    PledgeSector env w =
      if 0 < cfg.MaxSealingSectors ∧ cfg.MaxSealingSectors < env.curSealing w.st then
        ⟨some (.text ("too many sectors sealing (curSealing: " ++ toString (env.curSealing w.st)
          ++ ", max: " ++ toString cfg.MaxSealingSectors ++ ")")), false, w⟩
      else ⟨none, true, w⟩ := by
  unfold PledgeSector
  rw [hcfg]
  by_cases h1 : 0 < cfg.MaxSealingSectors
  · by_cases h2 : cfg.MaxSealingSectors < env.curSealing w.st
    · simp [h1, h2]
    · simp [h1, h2]
  · simp [h1]

theorem PledgeSector_frame {σ : Type} (env : SealingEnv σ) (w : World σ Call) :
    (PledgeSector env w).world = w ∧
      ((PledgeSector env w).started = true ↔ (PledgeSector env w).err = none) := by
  unfold PledgeSector
  cases env.getConfig w.st with
  | error e => simp
  | ok cfg =>
    by_cases h1 : cfg.MaxSealingSectors > 0
    · by_cases h2 : env.curSealing w.st > cfg.MaxSealingSectors
      · simp [h1, h2]
      · simp [h1, h2]
    · simp [h1]

/-- C1. Admission decision: with the configuration read successfully, current
sealing count `c` and ceiling `m`, `PledgeSector` returns an error if and only
if `m > 0` and `c > m`; that error is the message "too many sectors sealing"
carrying `c` and `m` in decimal; and with `m = 0` no error is returned and the
background unit is started, whatever `c` is. -/
theorem PledgeSector_admission {σ : Type} (env : SealingEnv σ) (w : World σ Call)
    (cfg : Config) (hcfg : env.getConfig w.st = .ok cfg) :
    ((PledgeSector env w).err ≠ none ↔
        0 < cfg.MaxSealingSectors ∧ cfg.MaxSealingSectors < env.curSealing w.st) ∧
    ((PledgeSector env w).err ≠ none →
        (PledgeSector env w).err =
          some (.text ("too many sectors sealing (curSealing: "
            ++ toString (env.curSealing w.st) ++ ", max: "
            ++ toString cfg.MaxSealingSectors ++ ")"))) ∧
    (cfg.MaxSealingSectors = 0 →
        (PledgeSector env w).err = none ∧ (PledgeSector env w).started = true) := by
  rw [PledgeSector_of_config env w cfg hcfg]
  by_cases h : 0 < cfg.MaxSealingSectors ∧ cfg.MaxSealingSectors < env.curSealing w.st
  · rw [if_pos h]
    refine ⟨?_, ?_, ?_⟩
    · simp [h]
    · intro _; rfl
    · intro h0; omega
  · rw [if_neg h]
    refine ⟨?_, ?_, ?_⟩
    · simp [h]
    · intro hne; exact absurd rfl hne
    · intro _; exact ⟨rfl, rfl⟩

/-- C1, witness: ceiling 2 and five sectors sealing is denied with both numbers
in the message; ceiling 0 and a hundred sectors sealing is admitted. -/
theorem PledgeSector_admission_witness :
    (PledgeSector (sampleSealing 2 localFlags (ok200 []) true) ⟨⟨5, 0, []⟩, []⟩).err =
      some (.text "too many sectors sealing (curSealing: 5, max: 2)") ∧
    ((PledgeSector (sampleSealing 0 localFlags (ok200 []) true) ⟨⟨100, 0, []⟩, []⟩).err = none ∧
      (PledgeSector (sampleSealing 0 localFlags (ok200 []) true) ⟨⟨100, 0, []⟩, []⟩).started
        = true) :=
  ⟨(PledgeSector_admission (sampleSealing 2 localFlags (ok200 []) true) ⟨⟨5, 0, []⟩, []⟩
    ⟨2⟩ rfl).2.1 ((PledgeSector_admission (sampleSealing 2 localFlags (ok200 []) true)
      ⟨⟨5, 0, []⟩, []⟩ ⟨2⟩ rfl).1.2 ⟨by decide, by decide⟩),
   (PledgeSector_admission (sampleSealing 0 localFlags (ok200 []) true) ⟨⟨100, 0, []⟩, []⟩
    ⟨0⟩ rfl).2.2 rfl⟩

/-- C2, as stated, fails: with ceiling 2 and two sectors sealing `PledgeSector`
returns no error and starts the background unit. -/
theorem PledgeSector_at_ceiling_admits :
    (PledgeSector (sampleSealing 2 localFlags (ok200 []) true) ⟨⟨2, 0, []⟩, []⟩).err = none ∧
    (PledgeSector (sampleSealing 2 localFlags (ok200 []) true) ⟨⟨2, 0, []⟩, []⟩).started
      = true ∧
    ¬ ((PledgeSector (sampleSealing 2 localFlags (ok200 []) true) ⟨⟨2, 0, []⟩, []⟩).err ≠ none ∧
      (PledgeSector (sampleSealing 2 localFlags (ok200 []) true) ⟨⟨2, 0, []⟩, []⟩).started
        = false) := by
  refine ⟨rfl, rfl, ?_⟩
  rintro ⟨h, _⟩
  exact h rfl

/-- C2, amended. With a positive ceiling `m`: when the current sealing count
exceeds `m` (such as ceiling 2 and count 3) `PledgeSector` returns the
admission-denied error and starts no background unit; when the count equals
`m` (ceiling 2, count 2) it returns no error and starts the unit. -/
theorem PledgeSector_denies_above_ceiling {σ : Type} (env : SealingEnv σ) (w : World σ Call)
    (cfg : Config) (hcfg : env.getConfig w.st = .ok cfg) (hm : 0 < cfg.MaxSealingSectors) :
    (cfg.MaxSealingSectors < env.curSealing w.st →
        (PledgeSector env w).err =
          some (.text ("too many sectors sealing (curSealing: "
            ++ toString (env.curSealing w.st) ++ ", max: "
            ++ toString cfg.MaxSealingSectors ++ ")")) ∧
        (PledgeSector env w).started = false) ∧
    (env.curSealing w.st = cfg.MaxSealingSectors →
        (PledgeSector env w).err = none ∧ (PledgeSector env w).started = true) := by
  rw [PledgeSector_of_config env w cfg hcfg]
  constructor
  · intro h
    rw [if_pos ⟨hm, h⟩]
    exact ⟨rfl, rfl⟩
  · intro h
    rw [if_neg (by omega)]
    exact ⟨rfl, rfl⟩

/-- C2, amended, witness: ceiling 2 and count 3 is denied. -/
theorem PledgeSector_denies_above_ceiling_witness :
    (PledgeSector (sampleSealing 2 localFlags (ok200 []) true) ⟨⟨3, 0, []⟩, []⟩).err =
        some (.text "too many sectors sealing (curSealing: 3, max: 2)") ∧
    (PledgeSector (sampleSealing 2 localFlags (ok200 []) true) ⟨⟨3, 0, []⟩, []⟩).started
      = false :=
  (PledgeSector_denies_above_ceiling (sampleSealing 2 localFlags (ok200 []) true)
    ⟨⟨3, 0, []⟩, []⟩ ⟨2⟩ rfl (by decide)).1 (by decide)

/-- C5. A denied pledge has no effects: whenever `PledgeSector` returns an
error, no background unit is started and the world is the one before the call
(collaborator state, hence the counter, unchanged; no call added to the log),
also after the whole attempt has run. -/
theorem PledgeSector_denied_no_effects {σ : Type} (env : SealingEnv σ) (w : World σ Call)
    (e : Err) (hden : (PledgeSector env w).err = some e) :
    (PledgeSector env w).started = false ∧ (PledgeSector env w).world = w ∧
      pledgeAttempt env w = (some e, w) ∧
      (pledgeAttempt env w).2.log = w.log ∧ (pledgeAttempt env w).2.st = w.st := by
  obtain ⟨hw, hs⟩ := PledgeSector_frame env w
  have hns : (PledgeSector env w).started = false := by
    cases hst : (PledgeSector env w).started with
    | false => rfl
    | true => rw [hs.1 hst] at hden; cases hden
  have hat : pledgeAttempt env w = (some e, w) := by
    unfold pledgeAttempt
    simp only [hns, hden, hw]
    rfl
  refine ⟨hns, hw, hat, ?_, ?_⟩ <;> rw [hat]

/-- C5, witness: ceiling 2 and five sectors sealing leave the world as it
was. -/
theorem PledgeSector_denied_no_effects_witness :
    pledgeAttempt (sampleSealing 2 localFlags (ok200 []) true) ⟨⟨5, 7, [3]⟩, [.scNext]⟩ =
      (some (.text "too many sectors sealing (curSealing: 5, max: 2)"),
        ⟨⟨5, 7, [3]⟩, [.scNext]⟩) :=
  (PledgeSector_denied_no_effects (sampleSealing 2 localFlags (ok200 []) true)
    ⟨⟨5, 7, [3]⟩, [.scNext]⟩ _ rfl).2.2.1

/-! ## The background unit -/

theorem nextSectorFromServer_ok_world {σ : Type} (env : SealingEnv σ) (url : String)
    (w : World σ Call) (n : Nat) (h : (nextSectorFromServer env url w).1 = (n, none)) :
    ∃ s, (nextSectorFromServer env url w).2 = w.step (.httpGet url) s := by
  by_cases hurl : url = ""
  · exfalso
    unfold nextSectorFromServer at h
    rw [if_pos hurl] at h
    cases h
  · cases hreq : env.newRequest url with
    | some e =>
      exfalso
      unfold nextSectorFromServer at h
      rw [if_neg hurl, hreq] at h
      cases h
    | none =>
      rcases hdo : env.doRequest url w.st with ⟨r, s1⟩
      refine ⟨s1, ?_⟩
      cases r with
      | error e =>
        unfold nextSectorFromServer
        rw [if_neg hurl, hreq]
        simp only [hdo]
      | ok resp =>
        rw [nextSectorFromServer_of_response env url w resp s1 hurl hreq hdo]
        split_ifs
        · rfl
        · split <;> rfl

theorem allocateSector_ok_log {σ : Type} (env : SealingEnv σ) (w w1 : World σ Call) (n : Nat)
    (h : allocateSector env w = ((n, none), w1)) :
    ∃ a, (a = Call.scNext ∨ ∃ url, a = Call.httpGet url) ∧ w1.log = w.log ++ [a] := by
  unfold allocateSector at h
  split_ifs at h with hf
  · refine ⟨.scNext, Or.inl rfl, ?_⟩
    have := congrArg (fun r => r.2.log) h
    exact this.symm
  · obtain ⟨s, hs⟩ := nextSectorFromServer_ok_world env
      ("http://" ++ env.snakestar.ServerAddress ++ "/snake/nextid") w n (by rw [h])
    refine ⟨.httpGet ("http://" ++ env.snakestar.ServerAddress ++ "/snake/nextid"),
      Or.inr ⟨_, rfl⟩, ?_⟩
    rw [h] at hs
    simp only at hs
    rw [hs]; rfl

/-- C6. Sector-initialisation failure is terminal and burns the number: when
the allocation of the background unit succeeds with number `n` and `NewSector`
fails, the unit ends right after `NewSector`; its calls are one allocation
call followed by `NewSector`, so the piece-pledging step and the sector
registration are not called and the allocator is not called a second time;
and with a strictly increasing allocator every number the next attempt
allocates is greater than `n`. -/
theorem pledgeBackground_newSector_failure {σ : Type} (env : SealingEnv σ)
    (w w1 : World σ Call) (n : Nat) (e : Err) (s2 : σ)
    (halloc : allocateSector env w = ((n, none), w1))
    (hnew : env.newSector (env.minerSector n) w1.st = (some e, s2)) :
    pledgeBackground env w = w1.step (.newSector (env.minerSector n)) s2 ∧
    (∃ a, (a = Call.scNext ∨ ∃ url, a = Call.httpGet url) ∧
      (pledgeBackground env w).log = w.log ++ [a, .newSector (env.minerSector n)]) ∧
    (∀ rank : σ → Nat, StrictlyIncreasing env rank →
      ∀ n2 w2, allocateSector env (pledgeBackground env w) = ((n2, none), w2) → n < n2) := by
  have hbg : pledgeBackground env w = w1.step (.newSector (env.minerSector n)) s2 := by
    unfold pledgeBackground
    simp only [halloc, hnew]
  refine ⟨hbg, ?_, ?_⟩
  · obtain ⟨a, ha, hlog⟩ := allocateSector_ok_log env w w1 n halloc
    refine ⟨a, ha, ?_⟩
    rw [hbg]
    show w1.log ++ [Call.newSector (env.minerSector n)] = _
    rw [hlog]
    simp
  · intro rank hmono n2 w2 hnext
    have h1 := (hmono.1 w n w1 halloc).2
    have h2 := hmono.2 (env.minerSector n) w1.st
    rw [hnew] at h2
    have h3 := (hmono.1 _ n2 w2 hnext).1
    rw [hbg] at h3
    have h4 : (w1.step (Call.newSector (env.minerSector n)) s2).st = s2 := rfl
    rw [h4] at h3
    simp only at h2
    omega

theorem sampleSealing_increasing (max : Nat) (resp : Except Err Response) (b : Bool) :
    StrictlyIncreasing (sampleSealing max localFlags resp b) (fun s => s.counter) := by
  constructor
  · intro w n w1 h
    have h1 : n = w.st.counter + 1 := (congrArg (fun r => r.1.1) h).symm
    have h2 : w1.st.counter = w.st.counter + 1 := (congrArg (fun r => r.2.st.counter) h).symm
    simp only [h1, h2]
    omega
  · intro sid s
    exact Nat.le_refl _

/-- C6, witness: the local counter stands at 7, `NewSector` fails on sector 8;
the unit makes two calls and the next allocation returns 9. -/
theorem pledgeBackground_newSector_failure_witness :
    pledgeBackground (sampleSealing 2 localFlags (ok200 []) false) ⟨⟨0, 7, []⟩, []⟩ =
        ⟨⟨0, 8, []⟩, [.scNext, .newSector ⟨1000, 8⟩]⟩ ∧
    (allocateSector (sampleSealing 2 localFlags (ok200 []) false)
        (pledgeBackground (sampleSealing 2 localFlags (ok200 []) false)
          ⟨⟨0, 7, []⟩, []⟩)).1 = (9, none) ∧
    8 < 9 :=
  ⟨(pledgeBackground_newSector_failure (sampleSealing 2 localFlags (ok200 []) false)
      ⟨⟨0, 7, []⟩, []⟩ ⟨⟨0, 8, []⟩, [.scNext]⟩ 8 (.collab 1) ⟨0, 8, []⟩ rfl rfl).1,
    rfl,
    (pledgeBackground_newSector_failure (sampleSealing 2 localFlags (ok200 []) false)
      ⟨⟨0, 7, []⟩, []⟩ ⟨⟨0, 8, []⟩, [.scNext]⟩ 8 (.collab 1) ⟨0, 8, []⟩ rfl rfl).2.2
      (fun s => s.counter) (sampleSealing_increasing 2 (ok200 []) false) 9
      ⟨⟨0, 9, []⟩, [.scNext, .newSector ⟨1000, 8⟩, .scNext]⟩ rfl⟩

/-! ## Storage attachment -/

theorem ensureDir_world {σ : Type} (env : StorageEnv σ) (p : String) (w : World σ FsCall) :
    (ensureDir env p w).2 = w ∨
      (ensureDir env p w).2 = w.step (.mkdirAll p) (env.mkdirAll p w.st).2 := by
  unfold ensureDir
  cases env.stat p w.st with
  | none => left; rfl
  | some e =>
    simp only []
    split_ifs
    · right
      rcases hmk : env.mkdirAll p w.st with ⟨r, s1⟩
      cases r with
      | none => rfl
      | some e1 =>
        simp only []
        split_ifs <;> rfl
    · left; rfl

theorem writes_append (l1 l2 : List FsCall) : writes (l1 ++ l2) = writes l1 ++ writes l2 := by
  unfold writes
  exact List.filter_append _ _

theorem registrations_append (l1 l2 : List FsCall) :
    registrations (l1 ++ l2) = registrations l1 ++ registrations l2 := by
  unfold registrations
  exact List.filter_append _ _

theorem idGenerations_append (l1 l2 : List FsCall) :
    idGenerations (l1 ++ l2) = idGenerations l1 ++ idGenerations l2 := by
  unfold idGenerations
  exact List.filter_append _ _

theorem ensureDir_log {σ : Type} (env : StorageEnv σ) (p : String) (w : World σ FsCall) :
    writes (ensureDir env p w).2.log = writes w.log ∧
      registrations (ensureDir env p w).2.log = registrations w.log ∧
      idGenerations (ensureDir env p w).2.log = idGenerations w.log := by
  rcases ensureDir_world env p w with h | h
  · rw [h]; exact ⟨rfl, rfl, rfl⟩
  · rw [h]
    unfold World.step
    simp only [writes_append, registrations_append, idGenerations_append]
    refine ⟨?_, ?_, ?_⟩ <;> simp [writes, registrations, idGenerations]

theorem AttachStorage_of_dir {σ : Type} (env : StorageEnv σ) (path p : String)
    (canSeal canStore : Bool) (w w1 : World σ FsCall)
    (hexp : homedirExpand env path = .ok p) (hdir : ensureDir env p w = (none, w1)) :
    AttachStorage env path canSeal canStore w =
      match env.stat (env.join p env.metaFile) w1.st with
      | none => attachExisting env path p w1
      | some e =>
        if !e.IsNotExist then (some (.os e), w1)
        else attachFresh env p canSeal canStore w1 := by
  unfold AttachStorage
  simp only [hexp, hdir]

theorem AttachStorage_fresh_eq {σ : Type} (env : StorageEnv σ) (path p : String)
    (canSeal canStore : Bool) (w w1 : World σ FsCall)
    (hexp : homedirExpand env path = .ok p) (hdir : ensureDir env p w = (none, w1))
    (hfresh : env.stat (env.join p env.metaFile) w1.st = some .notExist) :
    AttachStorage env path canSeal canStore w = attachFresh env p canSeal canStore w1 := by
  rw [AttachStorage_of_dir env path p canSeal canStore w w1 hexp hdir, hfresh]
  rfl

theorem attachFresh_written {σ : Type} (env : StorageEnv σ) (p : String)
    (canSeal canStore : Bool) (w1 : World σ FsCall) (b : String) (s3 : σ)
    (hm : env.marshalIndent ⟨(env.uuidNew w1.st).1, 10, canSeal, canStore⟩ = .ok b)
    (hw : env.writeFile (env.join p env.metaFile) b (env.uuidNew w1.st).2 = (none, s3)) :
    attachFresh env p canSeal canStore w1 =
      ((env.storageAddLocal p s3).1,
        ⟨(env.storageAddLocal p s3).2,
          w1.log ++ [.uuidNew, .writeFile (env.join p env.metaFile) b, .storageAddLocal p]⟩) := by
  unfold attachFresh
  simp only [hm, World.step, hw, List.append_assoc, List.singleton_append]
  rfl

theorem attachFresh_write_failed {σ : Type} (env : StorageEnv σ) (p : String)
    (canSeal canStore : Bool) (w1 : World σ FsCall) (b : String) (e : OsErr) (s3 : σ)
    (hm : env.marshalIndent ⟨(env.uuidNew w1.st).1, 10, canSeal, canStore⟩ = .ok b)
    (hw : env.writeFile (env.join p env.metaFile) b (env.uuidNew w1.st).2 = (some e, s3)) :
    attachFresh env p canSeal canStore w1 =
      (some (.wrapped ("persisting storage metadata (" ++ env.join p env.metaFile ++ ")")
          (.os e)),
        ⟨s3, w1.log ++ [.uuidNew, .writeFile (env.join p env.metaFile) b]⟩) := by
  unfold attachFresh
  simp only [hm, World.step, hw, List.append_assoc, List.singleton_append]

theorem attachFresh_success {σ : Type} (env : StorageEnv σ) (p : String)
    (canSeal canStore : Bool) (w1 : World σ FsCall)
    (hok : (attachFresh env p canSeal canStore w1).1 = none) :
    ∃ b s3, env.marshalIndent ⟨(env.uuidNew w1.st).1, 10, canSeal, canStore⟩ = .ok b ∧
      env.writeFile (env.join p env.metaFile) b (env.uuidNew w1.st).2 = (none, s3) ∧
      (env.storageAddLocal p s3).1 = none := by
  cases hm : env.marshalIndent ⟨(env.uuidNew w1.st).1, 10, canSeal, canStore⟩ with
  | error e =>
    exfalso
    unfold attachFresh at hok
    simp only [hm] at hok
    cases hok
  | ok b =>
    rcases hw : env.writeFile (env.join p env.metaFile) b (env.uuidNew w1.st).2 with ⟨r, s3⟩
    cases r with
    | some e =>
      exfalso
      rw [attachFresh_write_failed env p canSeal canStore w1 b e s3 hm hw] at hok
      cases hok
    | none =>
      rw [attachFresh_written env p canSeal canStore w1 b s3 hm hw] at hok
      exact ⟨b, s3, rfl, hw, hok⟩

/-- C8. First attachment of a fresh path: for a path that expands to `p`, whose
directory step succeeds and whose metadata file is reported absent, and for
every pair of flags, (1) a successful `AttachStorage` has generated one id,
written one file, at `join p metaFile`, holding the marshalled metadata with
that id, weight 10 and the two flags, and then called `StorageAddLocal p`
once, these being all the calls after the directory step; (2) whenever the
write succeeds the value returned is that of `StorageAddLocal`; (3) when the
write fails an error is returned and `StorageAddLocal` is not called. -/
theorem AttachStorage_fresh {σ : Type} (env : StorageEnv σ) (path p : String)
    (canSeal canStore : Bool) (w w1 : World σ FsCall)
    (hexp : homedirExpand env path = .ok p) (hdir : ensureDir env p w = (none, w1))
    (hfresh : env.stat (env.join p env.metaFile) w1.st = some .notExist) :
    ((AttachStorage env path canSeal canStore w).1 = none →
      ∃ b s3,
        env.marshalIndent ⟨(env.uuidNew w1.st).1, 10, canSeal, canStore⟩ = .ok b ∧
        env.writeFile (env.join p env.metaFile) b (env.uuidNew w1.st).2 = (none, s3) ∧
        (AttachStorage env path canSeal canStore w).2.log =
          w1.log ++ [.uuidNew, .writeFile (env.join p env.metaFile) b, .storageAddLocal p] ∧
        writes (AttachStorage env path canSeal canStore w).2.log =
          writes w.log ++ [.writeFile (env.join p env.metaFile) b] ∧
        registrations (AttachStorage env path canSeal canStore w).2.log =
          registrations w.log ++ [.storageAddLocal p]) ∧
    (∀ b s3, env.marshalIndent ⟨(env.uuidNew w1.st).1, 10, canSeal, canStore⟩ = .ok b →
      env.writeFile (env.join p env.metaFile) b (env.uuidNew w1.st).2 = (none, s3) →
      (AttachStorage env path canSeal canStore w).1 = (env.storageAddLocal p s3).1 ∧
      (AttachStorage env path canSeal canStore w).2.st = (env.storageAddLocal p s3).2) ∧
    (∀ b e s3, env.marshalIndent ⟨(env.uuidNew w1.st).1, 10, canSeal, canStore⟩ = .ok b →
      env.writeFile (env.join p env.metaFile) b (env.uuidNew w1.st).2 = (some e, s3) →
      (AttachStorage env path canSeal canStore w).1 =
        some (.wrapped ("persisting storage metadata (" ++ env.join p env.metaFile ++ ")")
          (.os e)) ∧
      registrations (AttachStorage env path canSeal canStore w).2.log =
        registrations w.log) := by
  rw [AttachStorage_fresh_eq env path p canSeal canStore w w1 hexp hdir hfresh]
  have hd := ensureDir_log env p w
  rw [hdir] at hd
  obtain ⟨hdw, hdr, _⟩ := hd
  simp only at hdw hdr
  refine ⟨?_, ?_, ?_⟩
  · intro hok
    obtain ⟨b, s3, hm, hw, _⟩ := attachFresh_success env p canSeal canStore w1 hok
    refine ⟨b, s3, hm, hw, ?_⟩
    rw [attachFresh_written env p canSeal canStore w1 b s3 hm hw]
    refine ⟨rfl, ?_, ?_⟩
    · simp only [writes_append, hdw]
      simp [writes]
    · simp only [registrations_append, hdr]
      simp [registrations]
  · intro b s3 hm hw
    rw [attachFresh_written env p canSeal canStore w1 b s3 hm hw]
    exact ⟨rfl, rfl⟩
  · intro b e s3 hm hw
    rw [attachFresh_write_failed env p canSeal canStore w1 b e s3 hm hw]
    refine ⟨rfl, ?_⟩
    simp only [registrations_append, hdr]
    simp [registrations]

/-- C8, witness: attaching `~/data` with flags (true, false) on an empty disk
creates the directory, generates one id, writes one metadata file with
`CanSeal` true and `CanStore` false, and registers `/home/u/data` once. -/
theorem AttachStorage_fresh_witness :
    AttachStorage sampleStorage "~/data" true false ⟨emptyDisk, []⟩ =
      (none,
        ⟨⟨["/home/u/data"],
            [("/home/u/data/sectorstore.json", renderMeta ⟨"id-0", 10, true, false⟩)],
            ["/home/u/data"], 1⟩,
          [.mkdirAll "/home/u/data", .uuidNew,
            .writeFile "/home/u/data/sectorstore.json" (renderMeta ⟨"id-0", 10, true, false⟩),
            .storageAddLocal "/home/u/data"]⟩) ∧
    ∃ b s3,
      sampleStorage.marshalIndent ⟨"id-0", 10, true, false⟩ = .ok b ∧
      sampleStorage.writeFile "/home/u/data/sectorstore.json" b ⟨["/home/u/data"], [], [], 1⟩
        = (none, s3) ∧
      (AttachStorage sampleStorage "~/data" true false ⟨emptyDisk, []⟩).2.log =
        [.mkdirAll "/home/u/data"] ++
          [.uuidNew, .writeFile "/home/u/data/sectorstore.json" b,
            .storageAddLocal "/home/u/data"] ∧
      writes (AttachStorage sampleStorage "~/data" true false ⟨emptyDisk, []⟩).2.log =
        writes [] ++ [.writeFile "/home/u/data/sectorstore.json" b] ∧
      registrations (AttachStorage sampleStorage "~/data" true false ⟨emptyDisk, []⟩).2.log =
        registrations [] ++ [.storageAddLocal "/home/u/data"] :=
  ⟨rfl,
    (AttachStorage_fresh sampleStorage "~/data" "/home/u/data" true false ⟨emptyDisk, []⟩
      ⟨⟨["/home/u/data"], [], [], 0⟩, [.mkdirAll "/home/u/data"]⟩ rfl rfl rfl).1 rfl⟩

theorem attachExisting_world {σ : Type} (env : StorageEnv σ) (path p : String)
    (w1 : World σ FsCall) :
    (attachExisting env path p w1).2 = w1 ∨
      (attachExisting env path p w1).2 =
        w1.step (.storageAddLocal p) (env.storageAddLocal p w1.st).2 := by
  unfold attachExisting
  cases env.storageLocal w1.st with
  | error e => left; rfl
  | ok locals =>
    simp only []
    split_ifs
    · left; rfl
    · right; rfl

theorem AttachStorage_existing_world {σ : Type} (env : StorageEnv σ) (path : String)
    (canSeal canStore : Bool) (w : World σ FsCall)
    (hmeta : ∀ p, homedirExpand env path = .ok p →
      env.stat (env.join p env.metaFile) (ensureDir env p w).2.st ≠ some .notExist) :
    (AttachStorage env path canSeal canStore w).2 = w ∨
      ∃ p, homedirExpand env path = .ok p ∧
        ((AttachStorage env path canSeal canStore w).2 = (ensureDir env p w).2 ∨
          (AttachStorage env path canSeal canStore w).2 =
            (ensureDir env p w).2.step (.storageAddLocal p)
              (env.storageAddLocal p (ensureDir env p w).2.st).2) := by
  cases hexp : homedirExpand env path with
  | error e =>
    left
    unfold AttachStorage
    rw [hexp]
  | ok p =>
    right
    refine ⟨p, rfl, ?_⟩
    have hm := hmeta p hexp
    rcases hdir : ensureDir env p w with ⟨r, w1⟩
    rw [hdir] at hm
    simp only at hm ⊢
    cases r with
    | some e =>
      left
      unfold AttachStorage
      simp only [hexp, hdir]
    | none =>
      rw [AttachStorage_of_dir env path p canSeal canStore w w1 hexp hdir]
      cases hst : env.stat (env.join p env.metaFile) w1.st with
      | none => exact attachExisting_world env path p w1
      | some e =>
        left
        cases e with
        | notExist => exact absurd hst hm
        | exist => rfl
        | other t => rfl

/-- C9. Metadata is write-once: when `os.Stat` does not report the metadata
file of the expanded path as absent, then for every pair of flags and every
behaviour of the collaborators `AttachStorage` makes no `WriteFile` call and
generates no id, whatever it returns; and every observation of the state that
`MkdirAll` and `StorageAddLocal` leave alone, such as the content of the
metadata file, is the same after the call as before. -/
theorem AttachStorage_existing_no_write {σ : Type} (env : StorageEnv σ) (path : String)
    (canSeal canStore : Bool) (w : World σ FsCall)
    (hmeta : ∀ p, homedirExpand env path = .ok p →
      env.stat (env.join p env.metaFile) (ensureDir env p w).2.st ≠ some .notExist) :
    writes (AttachStorage env path canSeal canStore w).2.log = writes w.log ∧
    idGenerations (AttachStorage env path canSeal canStore w).2.log = idGenerations w.log ∧
    (∀ (α : Type) (obs : σ → α), (∀ q s, obs (env.mkdirAll q s).2 = obs s) →
      (∀ q s, obs (env.storageAddLocal q s).2 = obs s) →
      obs (AttachStorage env path canSeal canStore w).2.st = obs w.st) := by
  have hdirst : ∀ p (α : Type) (obs : σ → α), (∀ q s, obs (env.mkdirAll q s).2 = obs s) →
      obs (ensureDir env p w).2.st = obs w.st := by
    intro p α obs hmk
    rcases ensureDir_world env p w with h | h
    · rw [h]
    · rw [h]; exact hmk p w.st
  rcases AttachStorage_existing_world env path canSeal canStore w hmeta with
    h | ⟨p, _, h | h⟩
  · rw [h]
    exact ⟨rfl, rfl, fun _ _ _ _ => rfl⟩
  · rw [h]
    obtain ⟨h1, _, h3⟩ := ensureDir_log env p w
    exact ⟨h1, h3, fun α obs hmk _ => hdirst p α obs hmk⟩
  · rw [h]
    obtain ⟨h1, _, h3⟩ := ensureDir_log env p w
    refine ⟨?_, ?_, ?_⟩
    · unfold World.step
      simp only [writes_append, h1]
      simp [writes]
    · unfold World.step
      simp only [idGenerations_append, h3]
      simp [idGenerations]
    · intro α obs hmk hadd
      show obs (env.storageAddLocal p (ensureDir env p w).2.st).2 = obs w.st
      rw [hadd]
      exact hdirst p α obs hmk

/-- C9, witness: re-attaching `/home/u/data` with flags (false, true), the
metadata on disk saying (true, true), writes nothing and leaves the files as
they were. -/
theorem AttachStorage_existing_no_write_witness :
    writes (AttachStorage sampleStorage "/home/u/data" false true ⟨attachedDisk, []⟩).2.log
      = writes [] ∧
    idGenerations
      (AttachStorage sampleStorage "/home/u/data" false true ⟨attachedDisk, []⟩).2.log
      = idGenerations [] ∧
    (AttachStorage sampleStorage "/home/u/data" false true ⟨attachedDisk, []⟩).2.st.files
      = [("/home/u/data/sectorstore.json", renderMeta ⟨"id-0", 10, true, true⟩)] :=
  ⟨(AttachStorage_existing_no_write sampleStorage "/home/u/data" false true
      ⟨attachedDisk, []⟩ (fun p hp => by cases hp; decide)).1,
    (AttachStorage_existing_no_write sampleStorage "/home/u/data" false true
      ⟨attachedDisk, []⟩ (fun p hp => by cases hp; decide)).2.1,
    (AttachStorage_existing_no_write sampleStorage "/home/u/data" false true
      ⟨attachedDisk, []⟩ (fun p hp => by cases hp; decide)).2.2 _ (fun s => s.files)
      (fun _ _ => rfl) (fun _ _ => rfl)⟩

/-- With the metadata file present, `AttachStorage` returns without a
registration exactly when the argument `path`, as it was passed, is among the
paths the storage subsystem reports. -/
theorem AttachStorage_existing_known {σ : Type} (env : StorageEnv σ) (path p : String)
    (canSeal canStore : Bool) (w w1 : World σ FsCall) (locals : List String)
    (hexp : homedirExpand env path = .ok p) (hdir : ensureDir env p w = (none, w1))
    (hmeta : env.stat (env.join p env.metaFile) w1.st = none)
    (hloc : env.storageLocal w1.st = .ok locals) :
    (path ∈ locals → AttachStorage env path canSeal canStore w = (none, w1)) ∧
    (path ∉ locals → AttachStorage env path canSeal canStore w =
      ((env.storageAddLocal p w1.st).1,
        w1.step (.storageAddLocal p) (env.storageAddLocal p w1.st).2)) := by
  rw [AttachStorage_of_dir env path p canSeal canStore w w1 hexp hdir, hmeta]
  simp only []
  unfold attachExisting
  rw [hloc]
  simp only []
  constructor
  · intro hin
    rw [if_pos]
    simp only [List.any_eq_true, beq_iff_eq]
    exact ⟨path, hin, rfl⟩
  · intro hnin
    rw [if_neg]
    simp only [List.any_eq_true, beq_iff_eq, not_exists, not_and]
    intro q hq heq
    exact hnin (heq ▸ hq)

/-- C7 at the failing input: `/home/u/data` is attached already (metadata file
present, path known to the storage subsystem) and `AttachStorage` is called
with the same directory written `~/data`; it calls `StorageAddLocal` again. -/
theorem AttachStorage_home_shorthand_registers_again :
    homedirExpand sampleStorage "~/data" = .ok "/home/u/data" ∧
    sampleStorage.stat "/home/u/data/sectorstore.json" attachedDisk = none ∧
    sampleStorage.storageLocal attachedDisk = .ok ["/home/u/data"] ∧
    (AttachStorage sampleStorage "~/data" true true ⟨attachedDisk, []⟩).2.log =
      [.storageAddLocal "/home/u/data"] ∧
    (AttachStorage sampleStorage "/home/u/data" true true ⟨attachedDisk, []⟩).2.log = [] :=
  ⟨rfl, rfl, rfl, rfl, rfl⟩

/-! ## The `run` action -/

theorem abort_or_continue {σ : Type} (r : Option Err × World σ FsCall) :
    (match r with
      | (some e, w1) => (some e, w1)
      | (none, w1) => (none, w1)) = r := by
  rcases r with ⟨_ | e, w1⟩ <;> rfl

/-- C10. Dual-capability startup attaches once.  (1) When the seal path and
the store path are the same non-empty string, the attachment section is one
call `AttachStorage(path, true, true)`, its error being the error of the
action; (2) on a fresh path such a successful start therefore makes exactly
one metadata write and one `StorageAddLocal` call.  (3) When the two paths
differ and both are non-empty, `AttachStorage(seal, true, false)` is called
first and, only if it returns no error, `AttachStorage(store, false, true)`;
(4, 5) with one path empty only the call for the other is made; (6) with both
empty no call is made.  (7) In every case an error returned by the first call
made is the error of the action, reached in the world that call left. -/
theorem runCmdAttach_calls {σ : Type} (env : StorageEnv σ) (sealPath storePath : String)
    (w : World σ FsCall) :
    (sealPath ≠ "" → storePath = sealPath →
      runCmdAttach env sealPath storePath w = AttachStorage env sealPath true true w) ∧
    (sealPath ≠ "" → storePath = sealPath →
      ∀ p w1, homedirExpand env sealPath = .ok p → ensureDir env p w = (none, w1) →
        env.stat (env.join p env.metaFile) w1.st = some .notExist →
        (runCmdAttach env sealPath storePath w).1 = none →
        ∃ b, env.marshalIndent ⟨(env.uuidNew w1.st).1, 10, true, true⟩ = .ok b ∧
          writes (runCmdAttach env sealPath storePath w).2.log =
            writes w.log ++ [.writeFile (env.join p env.metaFile) b] ∧
          registrations (runCmdAttach env sealPath storePath w).2.log =
            registrations w.log ++ [.storageAddLocal p]) ∧
    (sealPath ≠ "" → storePath ≠ "" → sealPath ≠ storePath →
      runCmdAttach env sealPath storePath w =
        match AttachStorage env sealPath true false w with
        | (some e, w1) => (some e, w1)
        | (none, w1) => AttachStorage env storePath false true w1) ∧
    (sealPath ≠ "" → storePath = "" →
      runCmdAttach env sealPath storePath w = AttachStorage env sealPath true false w) ∧
    (sealPath = "" → storePath ≠ "" →
      runCmdAttach env sealPath storePath w = AttachStorage env storePath false true w) ∧
    (sealPath = "" → storePath = "" → runCmdAttach env sealPath storePath w = (none, w)) ∧
    (∀ e w1, sealPath ≠ "" → sealPath ≠ storePath →
      AttachStorage env sealPath true false w = (some e, w1) →
      runCmdAttach env sealPath storePath w = (some e, w1)) := by
  have hsame : sealPath ≠ "" → storePath = sealPath →
      runCmdAttach env sealPath storePath w = AttachStorage env sealPath true true w := by
    intro h1 h2
    unfold runCmdAttach
    rw [if_pos ⟨h1, h2 ▸ h1, h2.symm⟩]
  have hdiff : sealPath ≠ "" → sealPath ≠ storePath →
      runCmdAttach env sealPath storePath w =
        match AttachStorage env sealPath true false w with
        | (some e, w1) => (some e, w1)
        | (none, w1) =>
          if storePath ≠ "" then AttachStorage env storePath false true w1 else (none, w1) := by
    intro h1 h3
    unfold runCmdAttach
    rw [if_neg (fun h => h3 h.2.2), if_pos h1]
  refine ⟨hsame, ?_, ?_, ?_, ?_, ?_, ?_⟩
  · intro h1 h2 p w1 hexp hdir hfresh hok
    rw [hsame h1 h2] at hok ⊢
    rw [AttachStorage_fresh_eq env sealPath p true true w w1 hexp hdir hfresh] at hok ⊢
    obtain ⟨b, s3, hm, hw, _⟩ := attachFresh_success env p true true w1 hok
    refine ⟨b, hm, ?_⟩
    rw [attachFresh_written env p true true w1 b s3 hm hw]
    have hd := ensureDir_log env p w
    rw [hdir] at hd
    obtain ⟨hdw, hdr, _⟩ := hd
    simp only at hdw hdr
    constructor
    · simp only [writes_append, hdw]
      simp [writes]
    · simp only [registrations_append, hdr]
      simp [registrations]
  · intro h1 h2 h3
    rw [hdiff h1 h3]
    simp only [if_pos h2]
  · intro h1 h2
    rw [hdiff h1 (by rw [h2]; exact h1)]
    simp only [h2, ne_eq, not_true_eq_false, if_false]
    exact abort_or_continue _
  · intro h1 h2
    unfold runCmdAttach
    rw [if_neg (fun h => h.1 h1), if_neg (by simp [h1])]
    simp only [if_pos h2]
  · intro h1 h2
    unfold runCmdAttach
    rw [if_neg (fun h => h.1 h1), if_neg (by simp [h1])]
    simp only [h2, ne_eq, not_true_eq_false, if_false]
  · intro e w1 h1 h3 herr
    rw [hdiff h1 h3, herr]

/-- C10, witness: with `--seal ~/data --store ~/data` on an empty disk the
action makes one metadata write, with both capabilities, and one
registration. -/
theorem runCmdAttach_calls_witness :
    runCmdAttach sampleStorage "~/data" "~/data" ⟨emptyDisk, []⟩ =
      AttachStorage sampleStorage "~/data" true true ⟨emptyDisk, []⟩ ∧
    (runCmdAttach sampleStorage "~/data" "~/data" ⟨emptyDisk, []⟩).2.log =
      [.mkdirAll "/home/u/data", .uuidNew,
        .writeFile "/home/u/data/sectorstore.json" (renderMeta ⟨"id-0", 10, true, true⟩),
        .storageAddLocal "/home/u/data"] ∧
    ∃ b, sampleStorage.marshalIndent ⟨"id-0", 10, true, true⟩ = .ok b ∧
      writes (runCmdAttach sampleStorage "~/data" "~/data" ⟨emptyDisk, []⟩).2.log =
        writes [] ++ [.writeFile "/home/u/data/sectorstore.json" b] ∧
      registrations (runCmdAttach sampleStorage "~/data" "~/data" ⟨emptyDisk, []⟩).2.log =
        registrations [] ++ [.storageAddLocal "/home/u/data"] :=
  ⟨(runCmdAttach_calls sampleStorage "~/data" "~/data" ⟨emptyDisk, []⟩).1 (by decide) rfl,
    rfl,
    (runCmdAttach_calls sampleStorage "~/data" "~/data" ⟨emptyDisk, []⟩).2.1 (by decide) rfl
      "/home/u/data" ⟨⟨["/home/u/data"], [], [], 0⟩, [.mkdirAll "/home/u/data"]⟩
      rfl rfl rfl rfl⟩

end Snake
